import Mathlib

/-!
Shallow embedding of the fishtank-game-template effect hooks: the particle
system (useParticles), the screen shake (useScreenShake), the game lifecycle
state (useGameState) and the brick-breaker example's brick collision loop.
Numbers are modelled as rationals; every browser `Math.random()` draw is
passed in explicitly as a sample in [0, 1).
-/

/-- Embedding of `random(min, max)` from lib/utils:
`Math.random() * (max - min) + min`, with the `Math.random()` sample `r`
passed explicitly. -/
def random (mn mx r : ℚ) : ℚ := r * (mx - mn) + mn

namespace Particles

/-- A particle, from useParticles' `Particle` interface.  The optional
`gravity`/`friction` fields are always filled in by `emit` (the option spread
merges defaults), so they are modelled as plain fields; the `?? 0` / `?? 1`
fallbacks in `update` therefore always see a value. -/
structure Particle where
  x : ℚ
  y : ℚ
  vx : ℚ
  vy : ℚ
  life : ℚ
  maxLife : ℚ
  size : ℚ
  color : String
  gravity : ℚ
  friction : ℚ
  shrink : Bool
  fade : Bool
deriving DecidableEq

/-- One particle's step inside `update`'s filter callback: decrement `life`
by `deltaTime`; drop the particle (`none`) once `life ≤ 0`; otherwise apply
gravity to `vy`, multiply both velocity components by `friction`, then
integrate the position by the updated velocity times elapsed seconds. -/
def updateParticle (deltaTime : ℚ) (p : Particle) : Option Particle :=
  let dt := deltaTime / 1000
  let life := p.life - deltaTime
  if life ≤ 0 then none
  else
    let vy0 := p.vy + p.gravity * dt
    let vx := p.vx * p.friction
    let vy := vy0 * p.friction
    let x := p.x + vx * dt
    let y := p.y + vy * dt
    some { p with life := life, vx := vx, vy := vy, x := x, y := y }

/-- `update(deltaTime)`: the in-place `Array.prototype.filter` over mutated
particles, i.e. a filterMap of the per-particle step. -/
def update (deltaTime : ℚ) (ps : List Particle) : List Particle :=
  ps.filterMap (updateParticle deltaTime)

/-- Reference step written from the spec's description of `advance`:
"decrement lifetime by elapsedMs; drop it if lifetime ≤ 0; otherwise
integrate velocity with gravity (vy += gravity × elapsedSeconds), apply
friction multiplicatively to both velocity components, then integrate
position (x += vx × elapsedSeconds, same for y)". -/
def specStep (elapsedMs : ℚ) (p : Particle) : Option Particle :=
  let elapsedSeconds := elapsedMs / 1000
  let lifeLeft := p.life - elapsedMs
  if lifeLeft ≤ 0 then none
  else
    let vyG := p.vy + p.gravity * elapsedSeconds
    let fvx := p.vx * p.friction
    let fvy := vyG * p.friction
    some { p with life := lifeLeft, vx := fvx, vy := fvy,
                  x := p.x + fvx * elapsedSeconds, y := p.y + fvy * elapsedSeconds }

/-- ParticleOptions from useParticles: every field optional, resolved against
DEFAULT_OPTIONS by the option spread.  The `count` loop bound and the
`direction`/`spread` angle draw are abstracted into the explicit per-particle
draw list fed to `emit` (see `EmitDraw`), so they carry no separate field
here. -/
structure ParticleOptions where
  colors : Option (List String) := none
  speedMin : Option ℚ := none
  speedMax : Option ℚ := none
  life : Option ℚ := none
  lifeVariance : Option ℚ := none
  sizeMin : Option ℚ := none
  sizeMax : Option ℚ := none
  gravity : Option ℚ := none
  friction : Option ℚ := none
  shrink : Option Bool := none
  fade : Option Bool := none
deriving DecidableEq

/-- Fully resolved options, after the `{ ...DEFAULT_OPTIONS, ...options }`
spread. -/
structure ResolvedOptions where
  colors : List String
  speedMin : ℚ
  speedMax : ℚ
  life : ℚ
  lifeVariance : ℚ
  sizeMin : ℚ
  sizeMax : ℚ
  gravity : ℚ
  friction : ℚ
  shrink : Bool
  fade : Bool
deriving DecidableEq

/-- The DEFAULT_OPTIONS colour list. -/
def defaultColors : List String := ["#00d4ff", "#00ff88", "#ffaa00", "#ff4444", "#ffffff"]

/-- Resolution of caller options against DEFAULT_OPTIONS. -/
def resolveOptions (o : ParticleOptions) : ResolvedOptions where
  colors := o.colors.getD defaultColors
  speedMin := o.speedMin.getD 50
  speedMax := o.speedMax.getD 200
  life := o.life.getD 500
  lifeVariance := o.lifeVariance.getD 200
  sizeMin := o.sizeMin.getD 2
  sizeMax := o.sizeMax.getD 6
  gravity := o.gravity.getD 200
  friction := o.friction.getD (98 / 100)
  shrink := o.shrink.getD true
  fade := o.fade.getD true

/-- The random draws consumed by one iteration of `emit`'s loop.  The drawn
angle passes through `Math.cos`/`Math.sin`, which are not rational, so the
unit direction (cos angle, sin angle) is taken as the draw itself; the other
`Math.random()` samples are rationals in [0, 1). -/
structure EmitDraw where
  dirX : ℚ
  dirY : ℚ
  rSpeed : ℚ
  rLife : ℚ
  rSize : ℚ
  rColor : ℚ
deriving DecidableEq

/-- The lifetime drawn for one particle:
`opts.life + random(-opts.lifeVariance, opts.lifeVariance)`. -/
def emitLife (o : ResolvedOptions) (d : EmitDraw) : ℚ :=
  o.life + random (-o.lifeVariance) o.lifeVariance d.rLife

/-- Fallback colour for the out-of-range index JS would answer with
`undefined`; unreachable for draws in [0, 1). -/
def missingColor : String := ""

/-- The particle pushed by one iteration of `emit`'s loop: position from the
call site, velocity from the drawn direction and speed, `life` and `maxLife`
both set to the drawn lifetime, size and colour drawn from their ranges, the
remaining fields copied from the resolved options. -/
def mkParticle (x y : ℚ) (o : ResolvedOptions) (d : EmitDraw) : Particle :=
  let speed := random o.speedMin o.speedMax d.rSpeed
  { x := x
    y := y
    vx := d.dirX * speed
    vy := d.dirY * speed
    life := emitLife o d
    maxLife := emitLife o d
    size := random o.sizeMin o.sizeMax d.rSize
    color := o.colors.getD (Int.floor (random 0 (o.colors.length : ℚ) d.rColor)).toNat missingColor
    gravity := o.gravity
    friction := o.friction
    shrink := o.shrink
    fade := o.fade }

/-- `emit(x, y, options)`: appends one particle per loop iteration, i.e. per
entry of the draw list (the source loops `opts.count` times, drawing fresh
randoms each round). -/
def emit (x y : ℚ) (o : ParticleOptions) (draws : List EmitDraw) (ps : List Particle) :
    List Particle :=
  ps ++ draws.map (mkParticle x y (resolveOptions o))

/-- The `{ ...preset, ...options }` spread used by the convenience presets:
caller fields win over preset fields. -/
def mergeOptions (preset caller : ParticleOptions) : ParticleOptions where
  colors := caller.colors.orElse fun _ => preset.colors
  speedMin := caller.speedMin.orElse fun _ => preset.speedMin
  speedMax := caller.speedMax.orElse fun _ => preset.speedMax
  life := caller.life.orElse fun _ => preset.life
  lifeVariance := caller.lifeVariance.orElse fun _ => preset.lifeVariance
  sizeMin := caller.sizeMin.orElse fun _ => preset.sizeMin
  sizeMax := caller.sizeMax.orElse fun _ => preset.sizeMax
  gravity := caller.gravity.orElse fun _ => preset.gravity
  friction := caller.friction.orElse fun _ => preset.friction
  shrink := caller.shrink.orElse fun _ => preset.shrink
  fade := caller.fade.orElse fun _ => preset.fade

/-- Preset options of `trail` (count 1, slow, short-lived, no gravity). -/
def trailPreset : ParticleOptions :=
  { speedMin := some 10, speedMax := some 30, life := some 300,
    sizeMin := some 2, sizeMax := some 4, gravity := some 0 }

/-- Preset options of `explode` (count 30, fast, larger). -/
def explodePreset : ParticleOptions :=
  { speedMin := some 100, speedMax := some 300, life := some 600,
    sizeMin := some 3, sizeMax := some 8 }

/-- Preset options of `sparkle` (count 5, upward cone via direction/spread —
abstracted into the draws — negative gravity, warm colours). -/
def sparklePreset : ParticleOptions :=
  { speedMin := some 50, speedMax := some 150, gravity := some (-50),
    life := some 400, colors := some ["#ffff00", "#ffaa00", "#ffffff"] }

/-- `trail(x, y, options)` delegates to `emit` with the trail preset merged
under the caller options. -/
def trail (x y : ℚ) (o : ParticleOptions) (draws : List EmitDraw) (ps : List Particle) :
    List Particle :=
  emit x y (mergeOptions trailPreset o) draws ps

/-- `explode(x, y, options)` delegates to `emit` with the explode preset. -/
def explode (x y : ℚ) (o : ParticleOptions) (draws : List EmitDraw) (ps : List Particle) :
    List Particle :=
  emit x y (mergeOptions explodePreset o) draws ps

/-- `sparkle(x, y, options)` delegates to `emit` with the sparkle preset. -/
def sparkle (x y : ℚ) (o : ParticleOptions) (draws : List EmitDraw) (ps : List Particle) :
    List Particle :=
  emit x y (mergeOptions sparklePreset o) draws ps

/-- `clear()`: discards all particles. -/
def clear (_ps : List Particle) : List Particle := []

/-- One call against the particle system, covering every entry point that
changes the collection. -/
inductive Op where
  | emit (x y : ℚ) (o : ParticleOptions) (draws : List EmitDraw)
  | trail (x y : ℚ) (o : ParticleOptions) (draws : List EmitDraw)
  | explode (x y : ℚ) (o : ParticleOptions) (draws : List EmitDraw)
  | sparkle (x y : ℚ) (o : ParticleOptions) (draws : List EmitDraw)
  | update (deltaTime : ℚ)
  | clear
deriving DecidableEq

/-- Effect of one call on the collection. -/
def Op.run : Op → List Particle → List Particle
  | .emit x y o d, ps => Particles.emit x y o d ps
  | .trail x y o d, ps => Particles.trail x y o d ps
  | .explode x y o d, ps => Particles.explode x y o d ps
  | .sparkle x y o d, ps => Particles.sparkle x y o d ps
  | .update dt, ps => Particles.update dt ps
  | .clear, ps => Particles.clear ps

/-- A whole call sequence, run left to right. -/
def runOps (ops : List Op) (ps : List Particle) : List Particle :=
  ops.foldl (fun s op => op.run s) ps

/-- Well-formed call: spawn calls draw positive lifetimes (true for every
draw in [0, 1) whenever variance < base lifetime, as in all presets and
defaults) and update receives a non-negative frame delta. -/
def Op.wf : Op → Prop
  | .emit _ _ o d => ∀ e ∈ d, 0 < emitLife (resolveOptions o) e
  | .trail _ _ o d => ∀ e ∈ d, 0 < emitLife (resolveOptions (mergeOptions trailPreset o)) e
  | .explode _ _ o d => ∀ e ∈ d, 0 < emitLife (resolveOptions (mergeOptions explodePreset o)) e
  | .sparkle _ _ o d => ∀ e ∈ d, 0 < emitLife (resolveOptions (mergeOptions sparklePreset o)) e
  | .update dt => 0 ≤ dt
  | .clear => True

instance (op : Op) : Decidable op.wf := by
  cases op <;> simp only [Op.wf] <;> infer_instance

/-- The lifetime invariant of the collection: every present particle has a
positive remaining life bounded by its initial life. -/
def Inv (ps : List Particle) : Prop :=
  ∀ p ∈ ps, 0 < p.life ∧ p.life ≤ p.maxLife

theorem updateParticle_eq_some {dt : ℚ} {p q : Particle}
    (h : updateParticle dt p = some q) :
    q.life = p.life - dt ∧ 0 < q.life ∧ q.maxLife = p.maxLife := by
  simp only [updateParticle] at h
  split at h
  · exact absurd h (by simp)
  · rename_i hpos
    obtain rfl : _ = q := Option.some.inj h
    refine ⟨rfl, by simpa using lt_of_not_le hpos, rfl⟩

theorem inv_update {dt : ℚ} {ps : List Particle} (hdt : 0 ≤ dt) (h : Inv ps) :
    Inv (update dt ps) := by
  intro q hq
  obtain ⟨p, hp, hpq⟩ := List.mem_filterMap.mp hq
  obtain ⟨hlife, hpos, hmax⟩ := updateParticle_eq_some hpq
  have := h p hp
  exact ⟨hpos, by rw [hlife, hmax]; linarith [this.2]⟩

theorem inv_emit {x y : ℚ} {o : ParticleOptions} {draws : List EmitDraw}
    {ps : List Particle} (h : Inv ps)
    (hd : ∀ e ∈ draws, 0 < emitLife (resolveOptions o) e) :
    Inv (emit x y o draws ps) := by
  intro p hp
  rcases List.mem_append.mp hp with hin | hin
  · exact h p hin
  · obtain ⟨d, hd', rfl⟩ := List.mem_map.mp hin
    exact ⟨hd d hd', le_refl _⟩

theorem inv_run {op : Op} {ps : List Particle} (hwf : op.wf) (h : Inv ps) :
    Inv (op.run ps) := by
  cases op with
  | emit x y o d => exact inv_emit h hwf
  | trail x y o d => exact inv_emit h hwf
  | explode x y o d => exact inv_emit h hwf
  | sparkle x y o d => exact inv_emit h hwf
  | update dt => exact inv_update hwf h
  | clear => intro p hp; cases hp

theorem inv_runOps {ops : List Op} (hwf : ∀ op ∈ ops, op.wf)
    {ps : List Particle} (h : Inv ps) : Inv (runOps ops ps) := by
  induction ops generalizing ps with
  | nil => exact h
  | cons op rest ih =>
      exact ih (fun o ho => hwf o (List.mem_cons_of_mem _ ho))
        (inv_run (hwf op (List.mem_cons_self _ _)) h)

end Particles

/-- C5: the particle update performed by `update(deltaTime)` equals the
spec's reference step on every particle: lifetime decrement first, drop on
`life ≤ 0` before any physics, then gravity, friction and position
integration in that order, survivors kept in order. -/
theorem particles_update_matches_reference_step (e : ℚ) (ps : List Particles.Particle) :
    Particles.update e ps = ps.filterMap (Particles.specStep e) := rfl

namespace Particles

/-- A concrete particle with non-trivial velocity and the default friction
factor 0.98, used to exercise `update` at `deltaTime = 0`. -/
def zeroDtParticle : Particle :=
  { x := 0, y := 0, vx := 100, vy := 40, life := 500, maxLife := 500,
    size := 3, color := "#00d4ff", gravity := 200, friction := 98/100,
    shrink := true, fade := true }

end Particles

/-- C1 counterexample: calling `update` with `deltaTime = 0` does NOT leave a
particle's velocity numerically unchanged — friction is applied per call,
unscaled by elapsed time, so a particle with `vx = 100` and the default
friction 0.98 comes out with `vx = 98`. -/
theorem particles_advance_zero_changes_velocity :
    (Particles.update 0 [Particles.zeroDtParticle]).map Particles.Particle.vx ≠
      [Particles.zeroDtParticle.vx] := by
  simp only [Particles.update, Particles.zeroDtParticle, Particles.updateParticle,
    List.filterMap_cons, List.filterMap_nil]
  norm_num

/-- C1 amended: `update(elapsedMs)` with `elapsedMs ≥ maxLife` removes a
particle whose remaining life is at most its initial life; and
`update(0)` keeps a live particle with its lifetime and position unchanged,
but multiplies each velocity component by its friction factor (so velocity
is unchanged only when friction is 1). -/
theorem particles_advance_full_life_removes_and_zero_keeps (e : ℚ) (p : Particles.Particle) :
    (p.life ≤ p.maxLife → p.maxLife ≤ e → Particles.updateParticle e p = none) ∧
    (0 < p.life → ∃ q, Particles.updateParticle 0 p = some q ∧
      q.life = p.life ∧ q.x = p.x ∧ q.y = p.y ∧
      q.vx = p.vx * p.friction ∧ q.vy = p.vy * p.friction) := by
  constructor
  · intro h1 h2
    have : p.life - e ≤ 0 := by linarith
    simp only [Particles.updateParticle]
    rw [if_pos this]
  · intro hp
    have hcond : ¬ p.life - 0 ≤ 0 := by linarith
    have heq : Particles.updateParticle 0 p =
        some { p with life := p.life - 0,
                      vx := p.vx * p.friction,
                      vy := (p.vy + p.gravity * (0 / 1000)) * p.friction,
                      x := p.x + p.vx * p.friction * (0 / 1000),
                      y := p.y + (p.vy + p.gravity * (0 / 1000)) * p.friction * (0 / 1000) } := by
      simp only [Particles.updateParticle]
      rw [if_neg hcond]
    exact ⟨_, heq, by simp, by simp, by simp, by simp, by simp⟩

/-- Witness for the amended C1: both directions at concrete inputs — the
sample particle is removed by `update` at its full lifetime, and survives a
zero-delta update with lifetime intact. -/
theorem particles_advance_full_life_witness :
    Particles.updateParticle 500 Particles.zeroDtParticle = none :=
  (particles_advance_full_life_removes_and_zero_keeps 500 Particles.zeroDtParticle).1
    (by decide) (by decide)

/-- C3: starting from the empty collection, after any sequence of
emit/trail/explode/sparkle/update/clear calls whose spawns draw positive
lifetimes and whose frame deltas are non-negative, every particle present
satisfies `0 < life ≤ maxLife`; moreover, unconditionally, every particle
still present after an `update` call has strictly positive remaining life, so
a particle with `life ≤ 0` is absent from the very next update onward. -/
theorem particles_lifetime_invariant (ops : List Particles.Op)
    (hwf : ∀ op ∈ ops, op.wf) :
    Particles.Inv (Particles.runOps ops []) ∧
    ∀ (dt : ℚ) (ps : List Particles.Particle) (q : Particles.Particle),
      q ∈ Particles.update dt ps → 0 < q.life := by
  refine ⟨Particles.inv_runOps hwf ?_, ?_⟩
  · intro p hp; cases hp
  · intro dt ps q hq
    obtain ⟨p, _, hpq⟩ := List.mem_filterMap.mp hq
    exact (Particles.updateParticle_eq_some hpq).2.1

namespace Particles

/-- A concrete call sequence exercising every operation. -/
def sampleOps : List Op :=
  [Op.emit 0 0 {} [⟨1, 0, 0, 0, 0, 0⟩, ⟨0, 1, 1/2, 1/2, 1/2, 1/2⟩],
   Op.update 16,
   Op.sparkle 10 20 {} [⟨0, -1, 1/4, 3/4, 1/2, 9/10⟩],
   Op.trail 5 5 {} [⟨1, 0, 0, 1/2, 0, 0⟩],
   Op.explode 40 40 {} [⟨0, 1, 1/3, 1/3, 1/3, 1/3⟩],
   Op.update 300,
   Op.clear]

end Particles

/-- Witness for C3 at a concrete run of all six operations. -/
theorem particles_lifetime_invariant_witness :
    Particles.Inv (Particles.runOps Particles.sampleOps []) :=
  (particles_lifetime_invariant Particles.sampleOps (by
    intro op hop
    fin_cases hop <;>
      norm_num [Particles.Op.wf, Particles.emitLife, Particles.resolveOptions,
        Particles.mergeOptions, Particles.trailPreset, Particles.explodePreset,
        Particles.sparklePreset, random])).1

namespace Shake

/-- ShakeOptions from useScreenShake, each field defaulted at the
destructuring site of `shake`. -/
structure ShakeOptions where
  intensity : Option ℚ := none
  duration : Option ℚ := none
  decay : Option ℚ := none
deriving DecidableEq

/-- The mutable shake state record. -/
structure ShakeState where
  intensity : ℚ
  duration : ℚ
  elapsed : ℚ
  offsetX : ℚ
  offsetY : ℚ
  decay : ℚ
deriving DecidableEq

/-- Initial state of the `useRef`. -/
def initState : ShakeState :=
  { intensity := 0, duration := 0, elapsed := 0, offsetX := 0, offsetY := 0,
    decay := 9/10 }

/-- `shake(options)`: defaults intensity=10, duration=200, decay=0.9; a
strictly stronger request replaces intensity/duration/decay and resets
elapsed; otherwise the request stacks additively, capped at twice the
requested intensity. -/
def shake (o : ShakeOptions) (s : ShakeState) : ShakeState :=
  let intensity := o.intensity.getD 10
  let duration := o.duration.getD 200
  let decay := o.decay.getD (9/10)
  if intensity > s.intensity then
    { s with intensity := intensity, duration := duration, elapsed := 0, decay := decay }
  else
    { s with intensity := min (s.intensity + intensity * (1/2)) (intensity * 2) }

/-- `update(deltaTime)`: clamp to zero at or below the 0.1 threshold;
otherwise accumulate elapsed, decay the intensity, redraw both offsets
uniformly in [-intensity, intensity), and hard-cut everything to zero once
elapsed reaches the duration.  The two `Math.random()` samples are `r1`,
`r2`. -/
def update (dt r1 r2 : ℚ) (s : ShakeState) : ShakeState :=
  if s.intensity ≤ 1/10 then
    { s with intensity := 0, offsetX := 0, offsetY := 0 }
  else
    let elapsed := s.elapsed + dt
    let intensity := s.intensity * s.decay
    let offX := random (-intensity) intensity r1
    let offY := random (-intensity) intensity r2
    if elapsed ≥ s.duration then
      { s with elapsed := elapsed, intensity := 0, offsetX := 0, offsetY := 0 }
    else
      { s with elapsed := elapsed, intensity := intensity, offsetX := offX, offsetY := offY }

/-- A shake state in the middle of a strong, still-running shake. -/
def strongState : ShakeState :=
  { intensity := 20, duration := 200, elapsed := 50, offsetX := 0, offsetY := 0,
    decay := 9/10 }

/-- The weak trigger of the spec's own worked example. -/
def weakOpts : ShakeOptions :=
  { intensity := some 5, duration := some 50, decay := none }

end Shake

/-- C2 counterexample: a weaker trigger can DECREASE the current intensity —
with current intensity 20, a trigger of intensity 5 yields
`min(20 + 2.5, 10) = 10 < 20` (the cap is twice the requested, not the
current, intensity). -/
theorem shake_weaker_trigger_decreases_intensity :
    (Shake.shake Shake.weakOpts Shake.strongState).intensity <
      Shake.strongState.intensity := by
  norm_num [Shake.shake, Shake.weakOpts, Shake.strongState]

/-- C2 amended: a weaker-or-equal trigger with non-negative requested
intensity never touches the remaining duration, the elapsed counter, or the
decay of the ongoing shake, and the resulting intensity is at least the
requested intensity and at least `min(current, 2 × requested)` — but it may
drop below the current intensity (down to twice the requested one) when the
request is weaker than half the current intensity. -/
theorem shake_weaker_trigger_amended (o : Shake.ShakeOptions) (s : Shake.ShakeState)
    (h0 : 0 ≤ o.intensity.getD 10) (h1 : o.intensity.getD 10 ≤ s.intensity) :
    min s.intensity (2 * o.intensity.getD 10) ≤ (Shake.shake o s).intensity ∧
    o.intensity.getD 10 ≤ (Shake.shake o s).intensity ∧
    (Shake.shake o s).duration = s.duration ∧
    (Shake.shake o s).elapsed = s.elapsed ∧
    (Shake.shake o s).decay = s.decay := by
  have hcond : ¬ o.intensity.getD 10 > s.intensity := not_lt.mpr h1
  simp only [Shake.shake]
  rw [if_neg hcond]
  refine ⟨?_, ?_, rfl, rfl, rfl⟩
  · refine le_min ?_ ?_
    · calc min s.intensity (2 * o.intensity.getD 10) ≤ s.intensity := min_le_left _ _
        _ ≤ s.intensity + o.intensity.getD 10 * (1/2) := by linarith
    · calc min s.intensity (2 * o.intensity.getD 10) ≤ 2 * o.intensity.getD 10 :=
          min_le_right _ _
        _ = o.intensity.getD 10 * 2 := by ring
  · refine le_min ?_ ?_ <;> linarith

/-- Witness for the amended C2 at the spec's worked example (current 20,
request 5). -/
theorem shake_weaker_trigger_amended_witness :
    min Shake.strongState.intensity (2 * Shake.weakOpts.intensity.getD 10) ≤
      (Shake.shake Shake.weakOpts Shake.strongState).intensity :=
  (shake_weaker_trigger_amended Shake.weakOpts Shake.strongState
    (by decide) (by decide)).1

/-- C4: the full tie-break rule of `shake` — a strictly stronger request
replaces intensity, duration and decay and resets elapsed to 0; a
weaker-or-equal request sets intensity to
`min(current + requested × 0.5, requested × 2)` and leaves duration, decay
and elapsed untouched. -/
theorem shake_trigger_stacking_rule (o : Shake.ShakeOptions) (s : Shake.ShakeState) :
    (o.intensity.getD 10 > s.intensity →
      Shake.shake o s =
        { s with intensity := o.intensity.getD 10, duration := o.duration.getD 200,
                 elapsed := 0, decay := o.decay.getD (9/10) }) ∧
    (o.intensity.getD 10 ≤ s.intensity →
      (Shake.shake o s).intensity =
        min (s.intensity + o.intensity.getD 10 * (1/2)) (o.intensity.getD 10 * 2) ∧
      (Shake.shake o s).duration = s.duration ∧
      (Shake.shake o s).decay = s.decay ∧
      (Shake.shake o s).elapsed = s.elapsed) := by
  constructor
  · intro h
    simp only [Shake.shake]
    rw [if_pos h]
  · intro h
    simp only [Shake.shake]
    rw [if_neg (not_lt.mpr h)]
    exact ⟨rfl, rfl, rfl, rfl⟩

/-- Witness for C4: a stronger trigger on the idle state installs the
requested intensity, duration and decay and resets elapsed. -/
theorem shake_trigger_stacking_rule_witness :
    Shake.shake Shake.weakOpts Shake.initState =
      { Shake.initState with
          intensity := Shake.weakOpts.intensity.getD 10,
          duration := Shake.weakOpts.duration.getD 200,
          elapsed := 0,
          decay := Shake.weakOpts.decay.getD (9/10) } :=
  (shake_trigger_stacking_rule Shake.weakOpts Shake.initState).1 (by decide)

/-- C6: after any `update` call with a non-negative decay rate and random
samples in [0, 1), both offsets have absolute value at most the (post-call)
intensity. -/
theorem shake_update_offset_bounded (s : Shake.ShakeState) (dt r1 r2 : ℚ)
    (hdecay : 0 ≤ s.decay) (h10 : 0 ≤ r1) (h11 : r1 < 1) (h20 : 0 ≤ r2) (h21 : r2 < 1) :
    |(Shake.update dt r1 r2 s).offsetX| ≤ (Shake.update dt r1 r2 s).intensity ∧
    |(Shake.update dt r1 r2 s).offsetY| ≤ (Shake.update dt r1 r2 s).intensity := by
  simp only [Shake.update, random]
  split_ifs with ha hb
  · simp
  · simp
  · have hs : (1:ℚ)/10 < s.intensity := not_le.mp ha
    have hI : 0 ≤ s.intensity * s.decay := mul_nonneg (by linarith) hdecay
    have e1 : 0 ≤ r1 * (s.intensity * s.decay) := mul_nonneg h10 hI
    have e2 : 0 ≤ (1 - r1) * (s.intensity * s.decay) := mul_nonneg (by linarith) hI
    have e3 : 0 ≤ r2 * (s.intensity * s.decay) := mul_nonneg h20 hI
    have e4 : 0 ≤ (1 - r2) * (s.intensity * s.decay) := mul_nonneg (by linarith) hI
    constructor <;> (simp only; rw [abs_le]; constructor <;> nlinarith [e1, e2, e3, e4])

/-- Witness for C6 at a concrete ongoing shake and concrete samples. -/
theorem shake_update_offset_bounded_witness :
    |(Shake.update 16 (1/2) (1/3) Shake.strongState).offsetX| ≤
      (Shake.update 16 (1/2) (1/3) Shake.strongState).intensity :=
  (shake_update_offset_bounded Shake.strongState 16 (1/2) (1/3)
    (by norm_num [Shake.strongState]) (by norm_num) (by norm_num)
    (by norm_num) (by norm_num)).1

namespace Shake

/-- The shake has been forced idle: intensity and both offsets exactly 0. -/
def zeroed (s : ShakeState) : Prop :=
  s.intensity = 0 ∧ s.offsetX = 0 ∧ s.offsetY = 0

/-- A run of further `update` calls, each with its delta and two samples. -/
def advances (s : ShakeState) (l : List (ℚ × ℚ × ℚ)) : ShakeState :=
  l.foldl (fun st x => update x.1 x.2.1 x.2.2 st) s

theorem zeroed_update {s : ShakeState} (h : s.intensity = 0) (dt r1 r2 : ℚ) :
    zeroed (update dt r1 r2 s) := by
  have : s.intensity ≤ 1/10 := by rw [h]; norm_num
  simp only [update]
  rw [if_pos this]
  exact ⟨rfl, rfl, rfl⟩

theorem zeroed_advances {s : ShakeState} (h : zeroed s) (l : List (ℚ × ℚ × ℚ)) :
    zeroed (advances s l) := by
  induction l generalizing s with
  | nil => exact h
  | cons x xs ih => exact ih (zeroed_update h.1 x.1 x.2.1 x.2.2)

/-- A shake whose accumulated elapsed crosses its duration on the next
16 ms frame. -/
def cutoffState : ShakeState :=
  { intensity := 20, duration := 100, elapsed := 90, offsetX := 5, offsetY := 5,
    decay := 9/10 }

end Shake

/-- C7: an `update` call in which the accumulated elapsed time reaches the
duration forces intensity, offsetX and offsetY to exactly 0, and every
further `update` call leaves all three exactly 0 (only a new trigger can
change them). -/
theorem shake_cutoff_and_stays_zero (s : Shake.ShakeState) (dt r1 r2 : ℚ)
    (l : List (ℚ × ℚ × ℚ)) (h : s.duration ≤ s.elapsed + dt) :
    Shake.zeroed (Shake.update dt r1 r2 s) ∧
    Shake.zeroed (Shake.advances (Shake.update dt r1 r2 s) l) := by
  have h1 : Shake.zeroed (Shake.update dt r1 r2 s) := by
    simp only [Shake.update]
    split_ifs with ha
    · exact ⟨rfl, rfl, rfl⟩
    · exact ⟨rfl, rfl, rfl⟩
  exact ⟨h1, Shake.zeroed_advances h1 l⟩

/-- Witness for C7: a concrete crossing frame followed by two further
frames stays at exactly zero. -/
theorem shake_cutoff_and_stays_zero_witness :
    Shake.zeroed (Shake.advances (Shake.update 16 (1/2) (1/3) Shake.cutoffState)
      [(16, 0, 0), (16, 1/2, 1/2)]) :=
  (shake_cutoff_and_stays_zero Shake.cutoffState 16 (1/2) (1/3)
    [(16, 0, 0), (16, 1/2, 1/2)] (by norm_num [Shake.cutoffState])).2

namespace Particles

/-- The drawing-surface state `render` touches: the global alpha, the fill
style, and the log of filled circles (centre, radius, fill style and alpha at
fill time). -/
structure Ctx where
  globalAlpha : ℚ
  fillStyle : String
  circles : List (ℚ × ℚ × ℚ × String × ℚ)
deriving DecidableEq

/-- One iteration of `render`'s loop: compute the life fraction, shrink the
radius and fade the alpha when flagged, set `globalAlpha` and `fillStyle`,
then `beginPath`/`arc`/`fill`, recorded as one circle. -/
def drawParticle (c : Ctx) (p : Particle) : Ctx :=
  let lifeFrac := p.life / p.maxLife
  let size := if p.shrink then p.size * lifeFrac else p.size
  let alpha := if p.fade then lifeFrac else 1
  { globalAlpha := alpha
    fillStyle := p.color
    circles := c.circles ++ [(p.x, p.y, size, p.color, alpha)] }

/-- `render(ctx)`: draw every particle in order, then set `globalAlpha` to
the constant 1. -/
def render (ps : List Particle) (c : Ctx) : Ctx :=
  let c2 := ps.foldl drawParticle c
  { c2 with globalAlpha := 1 }

/-- The circle one particle produces: radius `size × (life / maxLife)` when
shrinking else `size`; alpha `life / maxLife` when fading else 1. -/
def circleOf (p : Particle) : ℚ × ℚ × ℚ × String × ℚ :=
  (p.x, p.y, if p.shrink then p.size * (p.life / p.maxLife) else p.size, p.color,
   if p.fade then p.life / p.maxLife else 1)

theorem foldl_draw_circles (ps : List Particle) (c : Ctx) :
    (ps.foldl drawParticle c).circles = c.circles ++ ps.map circleOf := by
  induction ps generalizing c with
  | nil => simp
  | cons p rest ih =>
      simp only [List.foldl_cons, List.map_cons, ih]
      simp [drawParticle, circleOf]

/-- A surface whose global alpha is not 1 before `render` is called. -/
def preAlphaCtx : Ctx :=
  { globalAlpha := 1/2, fillStyle := "", circles := [] }

end Particles

/-- C8 counterexample: `render` does not restore the surface's global alpha
to its pre-call value — with global alpha 1/2 before the call it is 1
afterwards (the code unconditionally resets it to the constant 1). -/
theorem particles_render_alpha_counterexample :
    (Particles.render [] Particles.preAlphaCtx).globalAlpha ≠
      Particles.preAlphaCtx.globalAlpha := by
  norm_num [Particles.render, Particles.preAlphaCtx]

/-- C8 amended: `render` draws every particle in the collection, in order, as
a filled circle with radius `size × (life/maxLife)` when the shrink flag is
set and `size` otherwise, and opacity `life/maxLife` when the fade flag is
set and 1 otherwise, and before returning sets the surface's global opacity
to the constant 1 (the canvas default), not necessarily its pre-call
value. -/
theorem particles_render_draws_circles_and_resets_alpha
    (ps : List Particles.Particle) (c : Particles.Ctx) :
    (Particles.render ps c).circles = c.circles ++ ps.map Particles.circleOf ∧
    (Particles.render ps c).globalAlpha = 1 :=
  ⟨Particles.foldl_draw_circles ps c, rfl⟩

namespace Bricks

/-- Rect from lib/types. -/
structure Rect where
  x : ℚ
  y : ℚ
  width : ℚ
  height : ℚ
deriving DecidableEq

/-- `rectsCollide` from lib/utils: strict axis-aligned overlap test. -/
def rectsCollide (a b : Rect) : Bool :=
  decide (a.x < b.x + b.width) && decide (a.x + a.width > b.x) &&
  decide (a.y < b.y + b.height) && decide (a.y + a.height > b.y)

/-- A ball of the brick-breaker example. -/
structure Ball where
  id : String
  x : ℚ
  y : ℚ
  vx : ℚ
  vy : ℚ
  radius : ℚ
deriving DecidableEq

/-- A brick of the brick-breaker example. -/
structure Brick where
  id : String
  x : ℚ
  y : ℚ
  color : String
  health : ℤ
  active : Bool
deriving DecidableEq

/-- CONFIG.brickWidth of the brick-breaker example. -/
def brickWidth : ℚ := 54

/-- CONFIG.brickHeight of the brick-breaker example. -/
def brickHeight : ℚ := 20

/-- The loop's hit test: the brick is active and its rectangle overlaps the
ball's bounding square. -/
def hits (ball : Ball) (brick : Brick) : Bool :=
  brick.active &&
    rectsCollide
      { x := ball.x - ball.radius, y := ball.y - ball.radius,
        width := ball.radius * 2, height := ball.radius * 2 }
      { x := brick.x, y := brick.y, width := brickWidth, height := brickHeight }

/-- The body of the hit branch: pick the smaller axis overlap to decide which
velocity component to flip, then decrement the brick's health, deactivating
it at zero.  (Score, combo, sound and particle side effects are outside the
collision state.) -/
def resolveHit (ball : Ball) (brick : Brick) : Ball × Brick :=
  let overlapLeft := ball.x + ball.radius - brick.x
  let overlapRight := brick.x + brickWidth - (ball.x - ball.radius)
  let overlapTop := ball.y + ball.radius - brick.y
  let overlapBottom := brick.y + brickHeight - (ball.y - ball.radius)
  let minOverlapX := min overlapLeft overlapRight
  let minOverlapY := min overlapTop overlapBottom
  let bounced := if minOverlapX < minOverlapY then { ball with vx := -ball.vx }
                 else { ball with vy := -ball.vy }
  let health := brick.health - 1
  (bounced,
   { brick with health := health, active := if health ≤ 0 then false else brick.active })

/-- The per-ball brick loop: scan the bricks in iteration order, resolve the
first active overlapping brick and `break`; later bricks are returned
untouched. -/
def collideBall (ball : Ball) : List Brick → Ball × List Brick
  | [] => (ball, [])
  | b :: rest =>
      if hits ball b then
        ((resolveHit ball b).1, (resolveHit ball b).2 :: rest)
      else
        ((collideBall ball rest).1, b :: (collideBall ball rest).2)

end Bricks

/-- C9: per ball and frame, at most one brick is resolved — either no brick
is active and overlapping and everything is unchanged, or the bricks split as
`pre ++ hit :: post` where nothing in `pre` matches, `hit` is the first
match in iteration order, only `hit` is resolved (health decremented, bounce
applied to the ball) and every brick after it is returned untouched. -/
theorem brick_first_hit_only (ball : Bricks.Ball) (bricks : List Bricks.Brick) :
    ((∀ b ∈ bricks, Bricks.hits ball b = false) ∧
      Bricks.collideBall ball bricks = (ball, bricks)) ∨
    (∃ pre hit post,
      bricks = pre ++ hit :: post ∧
      (∀ b ∈ pre, Bricks.hits ball b = false) ∧
      Bricks.hits ball hit = true ∧
      Bricks.collideBall ball bricks =
        ((Bricks.resolveHit ball hit).1,
          pre ++ (Bricks.resolveHit ball hit).2 :: post)) := by
  induction bricks with
  | nil => left; exact ⟨by simp, rfl⟩
  | cons b rest ih =>
      by_cases hb : Bricks.hits ball b
      · right
        exact ⟨[], b, rest, rfl, by simp, hb, by simp [Bricks.collideBall, hb]⟩
      · rcases ih with ⟨hall, heq⟩ | ⟨pre, hit, post, hsplit, hpre, hhit, heq⟩
        · left
          constructor
          · intro c hc
            rcases List.mem_cons.mp hc with rfl | hc
            · simpa using hb
            · exact hall c hc
          · simp [Bricks.collideBall, hb, heq]
        · right
          refine ⟨b :: pre, hit, post, by rw [hsplit, List.cons_append], ?_, hhit, ?_⟩
          · intro c hc
            rcases List.mem_cons.mp hc with rfl | hc
            · simpa using hb
            · exact hpre c hc
          · simp [Bricks.collideBall, hb, heq]

namespace Lifecycle

/-- GameState from lib/types. -/
inductive GameState where
  | idle
  | playing
  | paused
  | gameOver
deriving DecidableEq

/-- GameResult from lib/types (metadata omitted: it never feeds back into
the state). -/
structure GameResult where
  score : Option ℚ := none
  highScore : Option ℚ := none
  level : Option ℚ := none
deriving DecidableEq

/-- The lifecycle hook's state: the machine state, score, high score, the
final result, and the localStorage slot backing the high score. -/
structure GState where
  state : GameState
  score : ℚ
  highScore : ℚ
  result : Option GameResult
  storage : Option ℚ
deriving DecidableEq

/-- `play()`. -/
def play (s : GState) : GState :=
  { s with state := .playing, score := 0, result := none }

/-- `pause()`. -/
def pause (s : GState) : GState := { s with state := .paused }

/-- `resume()`. -/
def resume (s : GState) : GState := { s with state := .playing }

/-- `reset()`. -/
def reset (s : GState) : GState :=
  { s with state := .idle, score := 0, result := none }

/-- `addScore(points)`. -/
def addScore (pts : ℚ) (s : GState) : GState := { s with score := s.score + pts }

/-- `end(gameResult)`: final score defaults to the running score, the new
high score is the max of the two, and the high score (with its storage slot)
is written only when that max is strictly greater than the previous one. -/
def endGame (r : GameResult) (s : GState) : GState :=
  let finalScore := r.score.getD s.score
  let newHighScore := max finalScore s.highScore
  let s1 := if newHighScore > s.highScore
            then { s with highScore := newHighScore, storage := some newHighScore }
            else s
  { s1 with
      result := some { r with score := some finalScore, highScore := some newHighScore },
      state := .gameOver }

/-- One lifecycle operation. -/
inductive LOp where
  | play
  | pause
  | resume
  | reset
  | endOp (r : GameResult)
  | addScore (pts : ℚ)
deriving DecidableEq

/-- Effect of one lifecycle operation. -/
def LOp.run : LOp → GState → GState
  | .play, s => Lifecycle.play s
  | .pause, s => Lifecycle.pause s
  | .resume, s => Lifecycle.resume s
  | .reset, s => Lifecycle.reset s
  | .endOp r, s => Lifecycle.endGame r s
  | .addScore p, s => Lifecycle.addScore p s

/-- A whole operation sequence, run left to right. -/
def runLOps (ops : List LOp) (s : GState) : GState :=
  ops.foldl (fun st op => op.run st) s

theorem highScore_le_run (op : LOp) (s : GState) :
    s.highScore ≤ (op.run s).highScore := by
  cases op with
  | endOp r =>
      simp only [LOp.run, endGame]
      split_ifs with h
      · simp
      · simp
  | play => simp [LOp.run, play]
  | pause => simp [LOp.run, pause]
  | resume => simp [LOp.run, resume]
  | reset => simp [LOp.run, reset]
  | addScore p => simp [LOp.run, addScore]

end Lifecycle

/-- C10: the high score never decreases under any sequence of
play/pause/resume/reset/end/addScore operations; and `end` sets the high
score to the max of the final score and the previous high score, writing the
storage slot exactly when that max is strictly greater than the previous
high score. -/
theorem lifecycle_high_score_monotone :
    (∀ (s : Lifecycle.GState) (ops : List Lifecycle.LOp),
      s.highScore ≤ (Lifecycle.runLOps ops s).highScore) ∧
    (∀ (s : Lifecycle.GState) (r : Lifecycle.GameResult),
      (Lifecycle.endGame r s).highScore = max (r.score.getD s.score) s.highScore ∧
      (Lifecycle.endGame r s).storage =
        (if s.highScore < max (r.score.getD s.score) s.highScore
         then some (max (r.score.getD s.score) s.highScore)
         else s.storage)) := by
  constructor
  · intro s ops
    induction ops generalizing s with
    | nil => exact le_refl _
    | cons op rest ih =>
        exact le_trans (Lifecycle.highScore_le_run op s) (ih (op.run s))
  · intro s r
    simp only [Lifecycle.endGame]
    split_ifs with h
    · exact ⟨rfl, rfl⟩
    · refine ⟨?_, rfl⟩
      have hle : max (r.score.getD s.score) s.highScore ≤ s.highScore := not_lt.mp h
      simpa using le_antisymm hle (le_max_right _ _)
